import Mathlib

/-!
Shallow embedding of the basic_off_time_driver firmware.

Two build variants are embedded:
the 6-mode EEPROM variant (src/driver.c, compiled with NO_MODE_MEMORY
defined), and the 4-mode noinit variant (src/unnamed/part_000, which keeps
its mode in a .noinit SRAM byte).  Machine bytes are modelled as Nat with
an explicit % 256 where the C code can overflow (the uint8_t increments).
The straight-line boot code is modelled both as pure state functions and
as an explicit event trace, so that ordering properties (what is written
before what) can be stated and settled.
-/

namespace OffTimeDriver

/-- The ramp lookup table: the sin_squared_half_period values of
driver.c line 81, selected at line 86 as ramp_LUT. -/
def ramp_LUT : List Nat :=
  [4, 4, 4, 4, 4, 4, 4, 4, 4, 4, 4, 4, 4, 4, 5, 5, 5, 5, 6, 6,
  6, 7, 7, 8, 9, 10, 10, 11, 13, 14, 15, 16, 18, 20, 21, 23, 25, 28, 30, 32,
  35, 38, 41, 44, 47, 50, 54, 57, 61, 65, 69, 73, 77, 81, 86, 90, 95, 100, 105, 110,
  115, 120, 125, 130, 135, 140, 145, 150, 156, 161, 166, 171, 176, 181, 186, 190, 195, 200, 204, 209,
  213, 217, 221, 224, 228, 231, 234, 237, 240, 243, 245, 247, 249, 250, 252, 253, 254, 254, 255, 255]

/-- Table size, sizeof(ramp_LUT) in the C code (equals 100). -/
def lutSize : Nat := ramp_LUT.length

/-- Index sequence of the forward loop of ramp() (driver.c 104-108):
for (i = 0; i < sizeof(ramp_LUT); i++). -/
def rampForwardIxs (K : Nat) : List Nat := List.range K

/-- Index sequence of the backward loop of ramp() (driver.c 109-113):
for (i = sizeof(ramp_LUT) - 1; i > 0; i--), visiting K-1 down to 1. -/
def rampBackwardIxs (K : Nat) : List Nat :=
  (List.range (K - 1)).map (fun j => K - 1 - j)

/-- Index sequence of one pass of the while(1) body of ramp(): the forward
loop followed by the backward loop. -/
def rampCycleIxs (K : Nat) : List Nat := rampForwardIxs K ++ rampBackwardIxs K

/-- Length of one pass of the while(1) body of ramp() over the actual table. -/
def cycleLen : Nat := (rampCycleIxs lutSize).length

/-- Table index read by ramp() at step n of its infinite playback: the
while(1) loop repeats the cycle forever. -/
def rampStepIx (n : Nat) : Nat := (rampCycleIxs lutSize).getD (n % cycleLen) 0

/-- Intensity value written to PWM_LVL and to noinit_lvl at step n of
ramp() (driver.c 105-106 and 110-111). -/
def rampEmitVal (n : Nat) : Nat := ramp_LUT.getD (rampStepIx n) 0

/-- Volatile bytes touched by one ramp() step: the PWM duty register
OCR0B and the noinit_lvl cell. -/
structure RampSt where
  pwm : Nat
  lvl : Nat
deriving DecidableEq

/-- Body of one ramp() iteration at step n: PWM_LVL = pgm_read_byte(...);
then noinit_lvl = PWM_LVL (two writes, in that order). -/
def rampStepDo (s : RampSt) (n : Nat) : RampSt :=
  let s1 : RampSt := { s with pwm := rampEmitVal n }
  { s1 with lvl := s1.pwm }

/-- State of the two volatile bytes after n steps of ramp() from s0. -/
def rampState (s0 : RampSt) : Nat → RampSt
  | 0 => s0
  | n + 1 => rampStepDo (rampState s0 n) n

/-- Local mode after driver.c 154-159: the NO_MODE_MEMORY branch resets it
to 0 when noinit_decay is nonzero. -/
def mode_afterReset (decay stored : Nat) : Nat :=
  if decay ≠ 0 then 0 else stored

/-- Local mode after driver.c 161-164: ++mode on a zero decay flag
(a short press); uint8_t increment wraps mod 256. -/
def mode_afterInc (decay stored : Nat) : Nat :=
  if decay = 0 then (mode_afterReset decay stored + 1) % 256
  else mode_afterReset decay stored

/-- Mode after the loop-around clamp of driver.c 171-174: this is the value
written to EEPROM at line 177 and dispatched by the switch at line 179. -/
def driverNextMode (decay stored : Nat) : Nat :=
  if 5 < mode_afterInc decay stored then 0 else mode_afterInc decay stored

/-- Local mode after the increment in the mode-memory build of driver.c:
main with the NO_MODE_MEMORY block (154-159) removed. -/
def modeMem_afterInc (decay stored : Nat) : Nat :=
  if decay = 0 then (stored + 1) % 256 else stored

/-- Mode computed by the mode-memory build of driver.c (NO_MODE_MEMORY
block removed), after the clamp of lines 171-174. -/
def driverNextModeMM (decay stored : Nat) : Nat :=
  if 5 < modeMem_afterInc decay stored then 0 else modeMem_afterInc decay stored

/-- What the switch(mode) of driver.c 179-198 does: a fixed write to
PWM_LVL, the value of noinit_lvl for case 5, entry into the non-returning
ramp() for case 4, or no case at all. -/
inductive DispAct where
  | setLevel (v : Nat)
  | enterRamp
  | noCase
deriving DecidableEq

/-- The switch(mode) of driver.c 179-198, with lvl the current value of
noinit_lvl. -/
def dispatchAct (mode lvl : Nat) : DispAct :=
  match mode with
  | 0 => DispAct.setLevel 0xFF
  | 1 => DispAct.setLevel 0x40
  | 2 => DispAct.setLevel 0x10
  | 3 => DispAct.setLevel 0x04
  | 4 => DispAct.enterRamp
  | 5 => DispAct.setLevel lvl
  | _ => DispAct.noCase

/-- Memory cells driver.c's main reads and writes before its dispatch:
the EEPROM mode byte MODE_P, the noinit_decay flag and noinit_lvl. -/
structure Mem where
  eeprom : Nat
  decay : Nat
  lvl : Nat
deriving DecidableEq

/-- Memory after driver.c main lines 152-177 (read mode, classify, clear
the decay flag, clamp, persist), just before the switch. -/
def driverPreDispatch (m : Mem) : Mem :=
  { m with decay := 0, eeprom := driverNextMode m.decay m.eeprom }

/-- noinit_mode as dispatched by part_000's switch: lines 84-87 reset it
to 0 when the decay flag is nonzero or the stored mode exceeds 3. -/
def noinitEff (decay mode : Nat) : Nat :=
  if decay ≠ 0 ∨ 3 < mode then 0 else mode

/-- noinit_mode at the end of part_000's main: ++noinit_mode at line 108,
uint8_t increment wrapping mod 256. -/
def noinitNextMode (decay mode : Nat) : Nat :=
  (noinitEff decay mode + 1) % 256

/-- PWM level after part_000's switch (93-106): modes 0-3 write a fixed
level, any other value matches no case and leaves the old level. -/
def noinitDispPwm (mode oldPwm : Nat) : Nat :=
  match mode with
  | 0 => 0xFF
  | 1 => 0x40
  | 2 => 0x10
  | 3 => 0x04
  | _ => oldPwm

/-- The pair (noinit_decay, noinit_mode) after one boot of part_000. -/
def noinitBootPair (decay mode : Nat) : Nat × Nat :=
  (0, noinitNextMode decay mode)

/-- Events of one boot's core logic, in the order the source executes
them (the out-of-scope PWM peripheral setup at the top of main is not
part of the core).  readEeprom / writeEeprom touch MODE_P; readDecay /
writeDecay touch noinit_decay; readMode / writeMode touch part_000's
noinit_mode; resetMode, incMode and clampMode are the assignments to the
local mode variable; writePwm and callRamp are the dispatch actions. -/
inductive Ev where
  | readEeprom (v : Nat)
  | readDecay (v : Nat)
  | resetMode
  | incMode
  | writeDecay (v : Nat)
  | clampMode
  | waitEeprom
  | writeEeprom (v : Nat)
  | readMode (v : Nat)
  | writeMode (v : Nat)
  | writePwm (v : Nat)
  | callRamp
deriving DecidableEq

/-- Event is a write to the EEPROM mode byte. -/
def isWriteEeprom : Ev → Bool
  | Ev.writeEeprom _ => true
  | _ => false

/-- Event is the clear of the decay flag. -/
def isWriteDecay : Ev → Bool
  | Ev.writeDecay _ => true
  | _ => false

/-- Event is a read of the decay flag. -/
def isReadDecay : Ev → Bool
  | Ev.readDecay _ => true
  | _ => false

/-- Event is a mode-transition computation: the reset-to-0 of the
NO_MODE_MEMORY branch or the short-press increment. -/
def isTransition : Ev → Bool
  | Ev.resetMode => true
  | Ev.incMode => true
  | _ => false

/-- Event is a mode-dependent brightness dispatch: a PWM write from a
switch case or the call into ramp(). -/
def isDispatchEv : Ev → Bool
  | Ev.writePwm _ => true
  | Ev.callRamp => true
  | _ => false

/-- Event is a write to part_000's noinit_mode cell. -/
def isModeWrite : Ev → Bool
  | Ev.writeMode _ => true
  | _ => false

/-- Event is the write of 0 to noinit_mode (the reset branch). -/
def isModeWriteZero : Ev → Bool
  | Ev.writeMode v => decide (v = 0)
  | _ => false

/-- Event is a write of a nonzero value to noinit_mode (the increment). -/
def isModeWritePos : Ev → Bool
  | Ev.writeMode v => decide (0 < v)
  | _ => false

/-- Every p-event of the trace occurs strictly before every q-event. -/
def evBefore (p q : Ev → Bool) (t : List Ev) : Prop :=
  ∀ i < t.length, ∀ j < t.length,
    p (t.getD i Ev.resetMode) = true → q (t.getD j Ev.resetMode) = true → i < j

/-- Every q-event of the trace is preceded by an earlier p-event. -/
def evReadBefore (p q : Ev → Bool) (t : List Ev) : Prop :=
  ∀ j < t.length, q (t.getD j Ev.resetMode) = true →
    ∃ i < j, p (t.getD i Ev.resetMode) = true

/-- Trace of driver.c main lines 152-176: read MODE_P, the two tests of
noinit_decay with their conditional mode assignments, the unconditional
clear of noinit_decay, the conditional clamp, the EEPROM busy wait. -/
def driverPreTrace (m : Mem) : List Ev :=
  [Ev.readEeprom m.eeprom, Ev.readDecay m.decay]
  ++ (if m.decay ≠ 0 then [Ev.resetMode] else [])
  ++ [Ev.readDecay m.decay]
  ++ (if m.decay = 0 then [Ev.incMode] else [])
  ++ [Ev.writeDecay 0]
  ++ (if 5 < mode_afterInc m.decay m.eeprom then [Ev.clampMode] else [])
  ++ [Ev.waitEeprom]

/-- Trace of the switch(mode) of driver.c 179-198. -/
def dispatchTrace (mode lvl : Nat) : List Ev :=
  match mode with
  | 0 => [Ev.writePwm 0xFF]
  | 1 => [Ev.writePwm 0x40]
  | 2 => [Ev.writePwm 0x10]
  | 3 => [Ev.writePwm 0x04]
  | 4 => [Ev.callRamp]
  | 5 => [Ev.writePwm lvl]
  | _ => []

/-- Full event trace of one boot of driver.c, lines 152-198: the
pre-dispatch part, then the EEPROM write at 177, then the switch. -/
def driverTrace (m : Mem) : List Ev :=
  driverPreTrace m
  ++ [Ev.writeEeprom (driverNextMode m.decay m.eeprom)]
  ++ dispatchTrace (driverNextMode m.decay m.eeprom) m.lvl

/-- Trace of part_000 main lines 84-90 plus the switch's read of
noinit_mode: the short-circuit test of line 84 (noinit_mode is only read
when noinit_decay is zero), the conditional reset write, the clear of
noinit_decay, the switch's read. -/
def noinitPreTrace (d v : Nat) : List Ev :=
  [Ev.readDecay d]
  ++ (if d = 0 then [Ev.readMode v] else [])
  ++ (if d ≠ 0 ∨ 3 < v then [Ev.writeMode 0] else [])
  ++ [Ev.writeDecay 0, Ev.readMode (noinitEff d v)]

/-- Trace of part_000's switch (93-106). -/
def noinitDispTrace (mode : Nat) : List Ev :=
  match mode with
  | 0 => [Ev.writePwm 0xFF]
  | 1 => [Ev.writePwm 0x40]
  | 2 => [Ev.writePwm 0x10]
  | 3 => [Ev.writePwm 0x04]
  | _ => []

/-- Full event trace of one boot of part_000, lines 84-108: classifier
and reset, dispatch, then the ++noinit_mode increment at line 108. -/
def noinitTrace (d v : Nat) : List Ev :=
  noinitPreTrace d v
  ++ noinitDispTrace (noinitEff d v)
  ++ [Ev.writeMode (noinitNextMode d v)]

instance evBeforeDec (p q : Ev → Bool) (t : List Ev) : Decidable (evBefore p q t) := by
  unfold evBefore
  infer_instance

instance evReadBeforeDec (p q : Ev → Bool) (t : List Ev) : Decidable (evReadBefore p q t) := by
  unfold evReadBefore
  infer_instance

/-- An in-range getD of a list is one of its elements. -/
theorem getD_mem {l : List Ev} {i : Nat} (h : i < l.length) (d : Ev) :
    l.getD i d ∈ l := by
  rw [List.getD_eq_getElem l d h]
  exact List.getElem_mem h

/-- If every p-event sits in the first part of an appended trace and
every q-event in the second, every p-event comes before every q-event. -/
theorem evBefore_append {p q : Ev → Bool} {l₁ l₂ : List Ev}
    (hp : ∀ e ∈ l₂, p e = false) (hq : ∀ e ∈ l₁, q e = false) :
    evBefore p q (l₁ ++ l₂) := by
  intro i hi j hj hpi hqj
  rw [List.length_append] at hi hj
  have hiL : i < l₁.length := by
    by_contra hge
    push_neg at hge
    rw [List.getD_append_right _ _ _ _ hge] at hpi
    have hm : (l₂.getD (i - l₁.length) Ev.resetMode) ∈ l₂ :=
      getD_mem (by omega) _
    rw [hp _ hm] at hpi
    exact Bool.false_ne_true hpi
  have hjR : l₁.length ≤ j := by
    by_contra hlt
    push_neg at hlt
    rw [List.getD_append _ _ _ _ hlt] at hqj
    have hm : (l₁.getD j Ev.resetMode) ∈ l₁ := getD_mem hlt _
    rw [hq _ hm] at hqj
    exact Bool.false_ne_true hqj
  omega

/-- In a trace whose second element is a p-event and whose first two
elements are not q-events, every q-event has an earlier p-event. -/
theorem evReadBefore_cons₂ {p q : Ev → Bool} {a b : Ev} {t : List Ev}
    (hpb : p b = true) (hqa : q a = false) (hqb : q b = false) :
    evReadBefore p q (a :: b :: t) := by
  intro j hj hqj
  match j with
  | 0 =>
    rw [show (a :: b :: t).getD 0 Ev.resetMode = a from rfl, hqa] at hqj
    exact absurd hqj Bool.false_ne_true
  | 1 =>
    rw [show (a :: b :: t).getD 1 Ev.resetMode = b from rfl, hqb] at hqj
    exact absurd hqj Bool.false_ne_true
  | k + 2 => exact ⟨1, by omega, hpb⟩

/-- In a trace whose head is a p-event and not a q-event, every q-event
has an earlier p-event. -/
theorem evReadBefore_cons {p q : Ev → Bool} {a : Ev} {t : List Ev}
    (hpa : p a = true) (hqa : q a = false) :
    evReadBefore p q (a :: t) := by
  intro j hj hqj
  match j with
  | 0 =>
    rw [show (a :: t).getD 0 Ev.resetMode = a from rfl, hqa] at hqj
    exact absurd hqj Bool.false_ne_true
  | k + 1 => exact ⟨0, by omega, hpa⟩

/-- No event of driver.c's pre-dispatch trace is a dispatch, an EEPROM
write or a noinit_mode write. -/
theorem driverPreTrace_all (m : Mem) :
    ∀ e ∈ driverPreTrace m,
      isDispatchEv e = false ∧ isWriteEeprom e = false ∧ isModeWritePos e = false := by
  intro e he
  have hshape : e = Ev.readEeprom m.eeprom ∨ e = Ev.readDecay m.decay ∨ e = Ev.resetMode ∨
      e = Ev.incMode ∨ e = Ev.writeDecay 0 ∨ e = Ev.clampMode ∨ e = Ev.waitEeprom := by
    simp [driverPreTrace] at he
    tauto
  rcases hshape with rfl|rfl|rfl|rfl|rfl|rfl|rfl <;> exact ⟨rfl, rfl, rfl⟩

/-- Every event of driver.c's switch trace is a pure dispatch action. -/
theorem dispatchTrace_all (mode lvl : Nat) :
    ∀ e ∈ dispatchTrace mode lvl,
      isWriteEeprom e = false ∧ isWriteDecay e = false ∧ isModeWrite e = false ∧
        isModeWriteZero e = false ∧ isTransition e = false := by
  rcases mode with _|_|_|_|_|_|k <;>
    simp [dispatchTrace, isWriteEeprom, isWriteDecay, isModeWrite, isModeWriteZero, isTransition]

/-- No event of part_000's pre-dispatch trace is a dispatch or a write
of a nonzero value to noinit_mode. -/
theorem noinitPreTrace_all (d v : Nat) :
    ∀ e ∈ noinitPreTrace d v, isDispatchEv e = false ∧ isModeWritePos e = false := by
  intro e he
  have hshape : e = Ev.readDecay d ∨ e = Ev.readMode v ∨ e = Ev.writeMode 0 ∨
      e = Ev.writeDecay 0 ∨ e = Ev.readMode (noinitEff d v) := by
    simp [noinitPreTrace] at he
    tauto
  rcases hshape with rfl|rfl|rfl|rfl|rfl <;> exact ⟨rfl, rfl⟩

/-- Every event of part_000's switch trace is a PWM write. -/
theorem noinitDispTrace_all (mode : Nat) :
    ∀ e ∈ noinitDispTrace mode,
      isModeWrite e = false ∧ isModeWriteZero e = false ∧ isWriteDecay e = false ∧
        isModeWritePos e = false := by
  rcases mode with _|_|_|_|_|k <;>
    simp [noinitDispTrace, isModeWrite, isModeWriteZero, isWriteDecay, isModeWritePos]

/-- The mode part_000 dispatches is always within 0..3. -/
theorem noinitEff_le (d v : Nat) : noinitEff d v ≤ 3 := by
  unfold noinitEff
  split <;> omega

set_option maxRecDepth 10000 in
/-- The table index ramp() reads is always within the table. -/
theorem rampStepIx_lt (n : Nat) : rampStepIx n < lutSize := by
  have h : ∀ m < cycleLen, (rampCycleIxs lutSize).getD m 0 < lutSize := by decide
  have hpos : 0 < cycleLen := by decide
  unfold rampStepIx
  exact h _ (Nat.mod_lt _ hpos)

/-- Every value ramp() emits is an entry of the table. -/
theorem rampEmitVal_mem (n : Nat) : rampEmitVal n ∈ ramp_LUT := by
  unfold rampEmitVal
  rw [List.getD_eq_getElem _ _ (rampStepIx_lt n)]
  exact List.getElem_mem _

set_option maxRecDepth 10000 in
/-- C1 (amended): the rise-fall playback of ramp() over the K = 100 entry
table is periodic with period 2K - 1 = 199, not 2K - 2: the forward loop
emits indices 0..99 and the backward loop then re-emits index 99 before
descending to 1, so the last table entry IS emitted twice in a row at the
top turnaround (steps 99 and 100 both read index 99), while the first
entry is emitted only once at the bottom turnaround (steps 198, 199, 200
read indices 1, 0, 1). -/
theorem ramp_triangle_period :
    (∀ n, rampStepIx (n + 199) = rampStepIx n) ∧
    (∀ n, rampEmitVal (n + 199) = rampEmitVal n) ∧
    (rampStepIx 99 = 99 ∧ rampStepIx 100 = 99) ∧
    (rampStepIx 198 = 1 ∧ rampStepIx 199 = 0 ∧ rampStepIx 200 = 1) := by
  have hlen : cycleLen = 199 := by decide
  have h1 : ∀ n, rampStepIx (n + 199) = rampStepIx n := by
    intro n
    unfold rampStepIx
    rw [hlen, Nat.add_mod_right]
  refine ⟨h1, fun n => ?_, ⟨?_, ?_⟩, ?_, ?_, ?_⟩
  · unfold rampEmitVal
    rw [h1]
  all_goals decide

set_option maxRecDepth 10000 in
/-- C1 (counterexample): the emitted value sequence does not have period
2K - 2 = 198 (it differs at steps 50 and 248), and the last table entry
is emitted twice in a row at the top turnaround (steps 99 and 100). -/
theorem ramp_triangle_period_cex :
    rampEmitVal (50 + 198) ≠ rampEmitVal 50 ∧
    rampStepIx 100 = rampStepIx 99 ∧ rampEmitVal 100 = rampEmitVal 99 := by
  decide

/-- C2: from any mode in range, six consecutive short-interruption boots
of driver.c return the persisted and dispatched mode to its start, and
four consecutive short boots of part_000 return the dispatched mode to
its start (the cyclic group property, N = 6 and N = 4). -/
theorem short_press_cycle :
    (∀ v < 6, (fun s => driverNextMode 0 s)^[6] v = v) ∧
    (∀ v < 4, noinitEff 0 ((fun s => noinitNextMode 0 s)^[4] v) = v) := by
  decide

/-- C2 (witness): the cycle property evaluated at start modes 2 and 1. -/
theorem short_press_cycle_w :
    (fun s => driverNextMode 0 s)^[6] 2 = 2 ∧
    noinitEff 0 ((fun s => noinitNextMode 0 s)^[4] 1) = 1 :=
  ⟨short_press_cycle.1 2 (by decide), short_press_cycle.2 1 (by decide)⟩

/-- C3: whatever the decay flag held on entry, it is 0 once the
classifier step of a boot has run, and the write of 0 is an event of
every boot's trace, in both variants. -/
theorem decay_always_cleared :
    (∀ m : Mem, (driverPreDispatch m).decay = 0 ∧ Ev.writeDecay 0 ∈ driverTrace m) ∧
    (∀ d v : Nat, (noinitBootPair d v).1 = 0 ∧ Ev.writeDecay 0 ∈ noinitTrace d v) := by
  constructor
  · intro m
    refine ⟨rfl, ?_⟩
    simp [driverTrace, driverPreTrace]
  · intro d v
    refine ⟨rfl, ?_⟩
    simp [noinitTrace, noinitPreTrace]

/-- C4: with mode memory disabled, a boot whose decay flag is nonzero (a
long interruption) computes mode 0, whatever mode was stored, in both
variants. -/
theorem long_press_resets (d stored : Nat) (hd : d ≠ 0) :
    driverNextMode d stored = 0 ∧ noinitEff d stored = 0 := by
  constructor
  · unfold driverNextMode mode_afterInc mode_afterReset
    simp [hd]
  · unfold noinitEff
    simp [hd]

/-- C4 (witness): a long interruption over stored modes 5 and 3. -/
theorem long_press_resets_w : driverNextMode 1 5 = 0 ∧ noinitEff 1 3 = 0 :=
  ⟨(long_press_resets 1 5 (by decide)).1, (long_press_resets 1 3 (by decide)).2⟩

/-- C5: in the mode-memory build of driver.c (NO_MODE_MEMORY block
removed), a long-interruption boot leaves the mode equal to the stored
mode, for every stored mode in the valid range 0..5. -/
theorem mode_memory_preserves (d stored : Nat) (hd : d ≠ 0) (hs : stored ≤ 5) :
    driverNextModeMM d stored = stored := by
  unfold driverNextModeMM modeMem_afterInc
  simp only [hd, if_false]
  rw [if_neg (by omega)]

/-- C5 (witness): a long interruption with stored mode 4 keeps mode 4. -/
theorem mode_memory_preserves_w : driverNextModeMM 1 4 = 4 :=
  mode_memory_preserves 1 4 (by decide) (by decide)

/-- C6: the switch of driver.c maps mode 0 to 0xFF, 1 to 0x40, 2 to 0x10,
3 to 0x04, 4 to entry into ramp() (modelled as the terminal enterRamp
action: ramp() is an infinite emission stream, defined at every step and
always emitting a table entry), and 5 to a write of the last ramp
level. -/
theorem dispatch_table :
    (∀ lvl : Nat,
      dispatchAct 0 lvl = DispAct.setLevel 0xFF ∧
      dispatchAct 1 lvl = DispAct.setLevel 0x40 ∧
      dispatchAct 2 lvl = DispAct.setLevel 0x10 ∧
      dispatchAct 3 lvl = DispAct.setLevel 0x04 ∧
      dispatchAct 4 lvl = DispAct.enterRamp ∧
      dispatchAct 5 lvl = DispAct.setLevel lvl) ∧
    (∀ n : Nat, rampEmitVal n ∈ ramp_LUT) :=
  ⟨fun lvl => ⟨rfl, rfl, rfl, rfl, rfl, rfl⟩, fun n => rampEmitVal_mem n⟩

/-- C7 (amended): in the EEPROM variant every persist of the computed
mode precedes every dispatch event, and in the noinit variant the
conditional reset write of noinit_mode precedes dispatch but the
increment write of the next mode follows dispatch. -/
theorem persist_before_dispatch :
    (∀ m : Mem, evBefore isWriteEeprom isDispatchEv (driverTrace m)) ∧
    (∀ d v : Nat, evBefore isModeWriteZero isDispatchEv (noinitTrace d v)) ∧
    (∀ d v : Nat, evBefore isDispatchEv isModeWritePos (noinitTrace d v)) := by
  refine ⟨?_, ?_, ?_⟩
  · intro m
    unfold driverTrace
    apply evBefore_append
    · intro e he
      exact (dispatchTrace_all _ _ e he).1
    · intro e he
      rcases List.mem_append.mp he with h | h
      · exact (driverPreTrace_all m e h).1
      · rw [List.mem_singleton.mp h]
        rfl
  · intro d v
    unfold noinitTrace
    rw [List.append_assoc]
    apply evBefore_append
    · intro e he
      rcases List.mem_append.mp he with h | h
      · exact (noinitDispTrace_all _ e h).2.1
      · have h4 : noinitNextMode d v = noinitEff d v + 1 := by
          unfold noinitNextMode
          exact Nat.mod_eq_of_lt (by have h3 := noinitEff_le d v; omega)
        rw [List.mem_singleton.mp h, h4]
        simp [isModeWriteZero]
    · intro e he
      exact (noinitPreTrace_all d v e he).1
  · intro d v
    unfold noinitTrace
    apply evBefore_append
    · intro e he
      rw [List.mem_singleton.mp he]
      rfl
    · intro e he
      rcases List.mem_append.mp he with h | h
      · exact (noinitPreTrace_all d v e h).2
      · exact (noinitDispTrace_all _ e h).2.2.2

/-- C7 (counterexample): in the noinit variant booted with decay 0 and
mode 0, the write of the computed next mode (1) to the mode store comes
after the dispatch write of 0xFF, so the store write does not precede
dispatch on every boot. -/
theorem persist_before_dispatch_cex :
    ¬ evBefore isModeWrite isDispatchEv (noinitTrace 0 0) := by decide

/-- C8 (amended): on every boot of either variant the decay flag is read
before any mode-transition computation, and in driver.c its clear to 0
precedes the EEPROM persist and the dispatch; but the clear follows the
reset-to-0 and increment computations rather than preceding them. -/
theorem decay_read_clear_order :
    (∀ m : Mem, evReadBefore isReadDecay isTransition (driverTrace m)) ∧
    (∀ d v : Nat, evReadBefore isReadDecay isModeWrite (noinitTrace d v)) ∧
    (∀ m : Mem, evBefore isWriteDecay isWriteEeprom (driverTrace m)) ∧
    (∀ m : Mem, evBefore isWriteDecay isDispatchEv (driverTrace m)) := by
  refine ⟨?_, ?_, ?_, ?_⟩
  · intro m
    exact evReadBefore_cons₂ rfl rfl rfl
  · intro d v
    exact evReadBefore_cons rfl rfl
  · intro m
    unfold driverTrace
    rw [List.append_assoc]
    apply evBefore_append
    · intro e he
      rcases List.mem_append.mp he with h | h
      · rw [List.mem_singleton.mp h]
        rfl
      · exact (dispatchTrace_all _ _ e h).2.1
    · intro e he
      exact (driverPreTrace_all m e he).2.1
  · intro m
    unfold driverTrace
    apply evBefore_append
    · intro e he
      exact (dispatchTrace_all _ _ e he).2.1
    · intro e he
      rcases List.mem_append.mp he with h | h
      · exact (driverPreTrace_all m e h).1
      · rw [List.mem_singleton.mp h]
        rfl

/-- C8 (counterexample): on a short-interruption boot of driver.c from
stored mode 0, the ++mode increment happens before noinit_decay is
cleared, so the flag is not read-then-cleared before the transition is
computed. -/
theorem decay_clear_late_cex :
    ¬ evBefore isWriteDecay isTransition (driverTrace ⟨0, 0, 0⟩) := by decide

/-- C9: after any step of ramp() completes, noinit_lvl equals the value
just emitted at that step, which is also the value in the PWM duty
register (ramp() writes PWM_LVL then copies it to noinit_lvl, so the two
never diverge between steps). -/
theorem last_ramp_level_tracks (s0 : RampSt) (n : Nat) :
    (rampState s0 (n + 1)).lvl = rampEmitVal n ∧
    (rampState s0 (n + 1)).lvl = (rampState s0 (n + 1)).pwm :=
  ⟨rfl, rfl⟩

/-- C10 (amended): driver.c dispatches and persists a mode in 0..5 and
maps every out-of-range intermediate value to exactly 0, not mod 6; the
noinit variant dispatches a mode in 0..3 and maps out-of-range entry
values to exactly 0, but the value it stores for the next boot is the
dispatched mode plus one, which can be 4, one past the valid range. -/
theorem mode_always_in_range :
    (∀ d s : Nat, driverNextMode d s ≤ 5 ∧ (5 < mode_afterInc d s → driverNextMode d s = 0)) ∧
    (∀ d v : Nat, noinitEff d v ≤ 3 ∧ ((d ≠ 0 ∨ 3 < v) → noinitEff d v = 0)) ∧
    driverNextMode 0 6 = 0 ∧ driverNextMode 0 6 ≠ (6 + 1) % 6 := by
  refine ⟨fun d s => ⟨?_, ?_⟩, fun d v => ⟨noinitEff_le d v, ?_⟩, by decide, by decide⟩
  · unfold driverNextMode
    split <;> omega
  · intro h
    unfold driverNextMode
    rw [if_pos h]
  · intro h
    unfold noinitEff
    rw [if_pos h]

/-- C10 (witness): the range facts evaluated at a corrupted stored mode 9
of driver.c and a long-interruption noinit boot from mode 2. -/
theorem mode_always_in_range_w :
    (driverNextMode 0 9 ≤ 5 ∧ driverNextMode 0 9 = 0) ∧
    (noinitEff 1 2 ≤ 3 ∧ noinitEff 1 2 = 0) :=
  ⟨⟨(mode_always_in_range.1 0 9).1, (mode_always_in_range.1 0 9).2 (by decide)⟩,
   ⟨(mode_always_in_range.2.1 1 2).1, (mode_always_in_range.2.1 1 2).2 (by decide)⟩⟩

/-- C10 (counterexample): the noinit boot from decay 0 and mode 3 writes
4 to the mode store, a value outside 0..3. -/
theorem mode_store_out_of_range_cex :
    3 < noinitNextMode 0 3 ∧ noinitNextMode 0 3 = 4 := by decide

end OffTimeDriver
